import Mathlib

/-!
Shallow embedding of the Run Reconciliation & Analytics Engine of
`web-dashboard/lib/data.ts` together with the HTTP boundary of
`web-dashboard/app/api/runs/[runId]/route.ts`.

Modelling conventions:
* The SQLite store is a `Store` record of row lists plus the optional
  `runtime_status` singleton row (`id = 1`).
* JavaScript `number` timestamps and counts are `Int`/`Nat`; money/PnL
  values are `Rat` (exact arithmetic idealisation of the float columns).
* `undefined` (field absent) versus `null` on the optional `opportunity`
  annotation is kept: `none` means the field is absent, `some none` is an
  explicit `null`, `some (some o)` an attached opportunity.
* JavaScript truthiness tests (`row.end_timestamp ? _ : _`,
  `row.last_heartbeat ? _ : _`) are embedded literally: `none` and
  `some 0` are falsy, any other integer is truthy.
* `Array.prototype.sort` (stable since ES2019) and SQL `ORDER BY` are
  embedded as `List.insertionSort`, which is a stable sort.
* Functions that `throw` are embedded with `Option` results (`none` is
  the thrown `runtime_status row not found` / `StatusRowMissing` error);
  state-passing versions return the (unchanged) store explicitly.
-/

/-- Row of the `opportunities` table (`Opportunity` in `data.ts`);
`parameters_snapshot` is an opaque JSON payload, kept as a `String`. -/
structure Opportunity where
  id : Int
  run_id : String
  timestamp : Int
  triangle_id : Int
  asset_a : String
  asset_b : String
  asset_c : String
  initial_size : Rat
  theoretical_final_amount : Rat
  theoretical_edge : Rat
  estimated_slippage_leg1 : Rat
  estimated_slippage_leg2 : Rat
  estimated_slippage_leg3 : Rat
  parameters_snapshot : String
  deriving DecidableEq

/-- Row of the `paper_trades` table (`PaperTrade` in `data.ts`). -/
structure PaperTrade where
  id : Int
  run_id : String
  timestamp : Int
  triangle_id : Int
  initial_size : Rat
  realized_final_amount : Rat
  realized_pnl : Rat
  realized_edge : Rat
  realized_slippage_leg1 : Rat
  realized_slippage_leg2 : Rat
  realized_slippage_leg3 : Rat
  fees_paid_leg1 : Rat
  fees_paid_leg2 : Rat
  fees_paid_leg3 : Rat
  was_executed : Bool
  reason_if_not_executed : Option String
  deriving DecidableEq

/-- Row of the `portfolio_snapshots` table (`PortfolioSnapshot` in
`data.ts`); `balances` is an opaque JSON payload, kept as a `String`. -/
structure PortfolioSnapshot where
  id : Int
  run_id : String
  timestamp : Int
  balances : String
  total_value_in_quote : Rat
  deriving DecidableEq

/-- Row of the `run_metadata` table; `run_id` is its unique key,
`end_timestamp` and `notes` are nullable columns. -/
structure RunMetaRow where
  run_id : String
  start_timestamp : Int
  end_timestamp : Option Int
  notes : Option String
  deriving DecidableEq

/-- The `runtime_status` singleton row (`id = 1`).  The boolean columns
are stored as integers, exactly as SQLite holds them; `data.ts` converts
with `Boolean(...)` on read. -/
structure StatusRow where
  bot_enabled : Int
  bot_running : Int
  ws_connected : Int
  last_heartbeat : Option Int
  deriving DecidableEq

/-- The persisted store: the four analytics tables plus the optional
runtime-status singleton. -/
structure Store where
  run_metadata : List RunMetaRow
  opportunities : List Opportunity
  paper_trades : List PaperTrade
  portfolio_snapshots : List PortfolioSnapshot
  runtime_status : Option StatusRow
  deriving DecidableEq

/-- Status discriminant of a `RunSummary` (`'active' | 'completed'`). -/
inductive RunStatus where
  | active
  | completed
  deriving DecidableEq

/-- `RunSummary` of `data.ts`. -/
structure RunSummary where
  runId : String
  startTimestamp : Int
  endTimestamp : Option Int
  notes : Option String
  tradeCount : Nat
  totalPnl : Rat
  averagePnl : Rat
  winRate : Rat
  durationSeconds : Option Int
  status : RunStatus
  deriving DecidableEq

/-- `TradeWithOpportunity = PaperTrade & { opportunity?: Opportunity | null }`:
`none` models the absent field (`undefined`), `some none` an explicit
`null`, `some (some o)` an attached opportunity. -/
structure TradeWithOpportunity extends PaperTrade where
  opportunity : Option (Option Opportunity)
  deriving DecidableEq

/-- Point of the equity curve built by `getRunDetails`. -/
structure EquityPoint where
  timestamp : Int
  equity : Rat
  deriving DecidableEq

/-- `RunDetails` of `data.ts`. -/
structure RunDetails where
  metadata : Option RunSummary
  trades : List TradeWithOpportunity
  opportunities : List Opportunity
  snapshots : List PortfolioSnapshot
  equityCurve : List EquityPoint
  maxDrawdown : Rat
  deriving DecidableEq

/-- `RuntimeStatus` of `data.ts`.  `lastHeartbeat` keeps the heartbeat
seconds; the source renders them as the ISO string
`new Date(hb * 1000).toISOString()`, an injective function of the
integer, so equality of responses coincides. -/
structure RuntimeStatus where
  botEnabled : Bool
  botRunning : Bool
  wsConnected : Bool
  dbConnected : Bool
  lastHeartbeat : Option Int
  deriving DecidableEq

/-- JavaScript truthiness of a nullable integer column:
`null` and `0` are falsy, every other number is truthy. -/
def intTruthy : Option Int → Bool
  | none => false
  | some v => v != 0

/-- Descending-timestamp order used by the correlator's comparator
`(a, b) => b.timestamp - a.timestamp`. -/
def oppDescLe (a b : Opportunity) : Prop := b.timestamp ≤ a.timestamp

instance : DecidableRel oppDescLe :=
  fun a b => inferInstanceAs (Decidable (b.timestamp ≤ a.timestamp))

instance : IsTotal Opportunity oppDescLe :=
  ⟨fun a b => le_total b.timestamp a.timestamp⟩

instance : IsTrans Opportunity oppDescLe :=
  ⟨fun _ _ _ hab hbc => le_trans hbc hab⟩

/-- Ascending-timestamp order of `ORDER BY timestamp ASC` on trades. -/
def tradeAscLe (a b : PaperTrade) : Prop := a.timestamp ≤ b.timestamp

instance : DecidableRel tradeAscLe :=
  fun a b => inferInstanceAs (Decidable (a.timestamp ≤ b.timestamp))

/-- Ascending-timestamp order of `ORDER BY timestamp ASC` on opportunities. -/
def oppAscLe (a b : Opportunity) : Prop := a.timestamp ≤ b.timestamp

instance : DecidableRel oppAscLe :=
  fun a b => inferInstanceAs (Decidable (a.timestamp ≤ b.timestamp))

/-- Ascending-timestamp order of `ORDER BY timestamp ASC` on snapshots. -/
def snapAscLe (a b : PortfolioSnapshot) : Prop := a.timestamp ≤ b.timestamp

instance : DecidableRel snapAscLe :=
  fun a b => inferInstanceAs (Decidable (a.timestamp ≤ b.timestamp))

/-- Descending `start_timestamp` order of `ORDER BY rm.start_timestamp DESC`. -/
def runDescLe (a b : RunMetaRow) : Prop := b.start_timestamp ≤ a.start_timestamp

instance : DecidableRel runDescLe :=
  fun a b => inferInstanceAs (Decidable (b.start_timestamp ≤ a.start_timestamp))

/-- Trades of a run: `WHERE pt.run_id = ?` / the `LEFT JOIN ... ON
rm.run_id = pt.run_id` match set, in persisted table order. -/
def runTrades (s : Store) (runId : String) : List PaperTrade :=
  s.paper_trades.filter (fun t => t.run_id == runId)

/-- The per-run aggregation shared by the `getRuns` and `getRunMetadata`
queries of `data.ts`: `COUNT(pt.id)`, `COALESCE(SUM(pt.realized_pnl), 0)`,
`CASE WHEN COUNT(pt.id) > 0 THEN AVG(pt.realized_pnl) ELSE 0 END`,
`SUM(CASE WHEN pt.realized_pnl > 0 THEN 1 ELSE 0 END)`, followed by the
per-row JavaScript mapping (truthiness test on `end_timestamp`,
`win_count / trade_count` guarded by `trade_count > 0`). -/
def summarizeRun (s : Store) (rm : RunMetaRow) : RunSummary :=
  let trades := runTrades s rm.run_id
  let tradeCount := trades.length
  let totalPnl := (trades.map (fun t => t.realized_pnl)).sum
  let avgPnl := if 0 < tradeCount then totalPnl / (tradeCount : Rat) else 0
  let winCount := (trades.filter (fun t => decide (0 < t.realized_pnl))).length
  let winRate := if 0 < tradeCount then (winCount : Rat) / (tradeCount : Rat) else 0
  { runId := rm.run_id
    startTimestamp := rm.start_timestamp
    endTimestamp := rm.end_timestamp
    notes := rm.notes
    tradeCount := tradeCount
    totalPnl := totalPnl
    averagePnl := avgPnl
    winRate := winRate
    durationSeconds :=
      if intTruthy rm.end_timestamp then
        some (rm.end_timestamp.getD 0 - rm.start_timestamp)
      else none
    status :=
      if intTruthy rm.end_timestamp then RunStatus.completed
      else RunStatus.active }

/-- `getRuns` of `data.ts`: every `run_metadata` row, ordered by
`start_timestamp DESC`, mapped through the shared aggregation. -/
def getRuns (s : Store) : List RunSummary :=
  (List.insertionSort runDescLe s.run_metadata).map (summarizeRun s)

/-- `getRunMetadata` of `data.ts`: the aggregation of the single
`run_metadata` row with the requested `run_id` (its unique key), or
`none` when no such row exists. -/
def getRunMetadata (s : Store) (runId : String) : Option RunSummary :=
  (s.run_metadata.find? (fun r => r.run_id == runId)).map (summarizeRun s)

/-- `getOpportunities` of `data.ts`:
`SELECT * FROM opportunities WHERE run_id = ? ORDER BY timestamp ASC`. -/
def getOpportunities (s : Store) (runId : String) : List Opportunity :=
  List.insertionSort oppAscLe (s.opportunities.filter (fun o => o.run_id == runId))

/-- `getPortfolioSnapshots` of `data.ts`:
`SELECT * FROM portfolio_snapshots WHERE run_id = ? ORDER BY timestamp ASC`. -/
def getPortfolioSnapshots (s : Store) (runId : String) : List PortfolioSnapshot :=
  List.insertionSort snapAscLe (s.portfolio_snapshots.filter (fun p => p.run_id == runId))

/-- `getTrades` of `data.ts`:
`SELECT * FROM paper_trades WHERE run_id = ? ORDER BY timestamp ASC`. -/
def getTrades (s : Store) (runId : String) : List PaperTrade :=
  List.insertionSort tradeAscLe (runTrades s runId)

/-- The correlator's per-trade candidate selection: filter the
opportunities sharing the trade's `triangle_id` with
`timestamp ≤ trade.timestamp`, sort them descending by timestamp
(`(a, b) => b.timestamp - a.timestamp`, a stable sort) and take
element `[0]` — `none` when the filtered list is empty. -/
def relatedOpp (t : PaperTrade) (opps : List Opportunity) : Option Opportunity :=
  (List.insertionSort oppDescLe
    (opps.filter (fun o =>
      o.triangle_id == t.triangle_id && decide (o.timestamp ≤ t.timestamp)))).head?

/-- `attachOpportunitiesToTrades` of `data.ts`.  On an empty opportunity
list the source returns the trade array unchanged (the `opportunity`
field stays absent, embedded as `none`); otherwise every trade is
annotated with `related ?? null` (embedded as `some (relatedOpp ...)`,
where the inner `none` is the explicit `null`). -/
def attachOpportunitiesToTrades (trades : List PaperTrade) (opps : List Opportunity) :
    List TradeWithOpportunity :=
  if opps.isEmpty then
    trades.map (fun t => { toPaperTrade := t, opportunity := none })
  else
    trades.map (fun t => { toPaperTrade := t, opportunity := some (relatedOpp t opps) })

/-- The equity-curve fold of `getRunDetails`, carrying the running
`cumulative` sum (`cumulative += trade.realized_pnl ?? 0`; the field is
non-nullable, so `?? 0` is the identity). -/
def buildEquityGo (c : Rat) : List TradeWithOpportunity → List EquityPoint
  | [] => []
  | t :: rest =>
    let c2 := c + t.realized_pnl
    { timestamp := t.timestamp, equity := c2 } :: buildEquityGo c2 rest

/-- The equity curve of `getRunDetails`: running sum started at 0. -/
def buildEquity (trades : List TradeWithOpportunity) : List EquityPoint :=
  buildEquityGo 0 trades

/-- One step of `computeMaxDrawdown`'s loop: update the running peak,
then the maximum drawdown. -/
def mddStep (acc : Rat × Rat) (p : EquityPoint) : Rat × Rat :=
  let peak := max acc.1 p.equity
  (peak, max acc.2 (peak - p.equity))

/-- `computeMaxDrawdown` of `data.ts`: fold over the equity curve with
`peak = 0`, `maxDrawdown = 0` initially. -/
def computeMaxDrawdown (curve : List EquityPoint) : Rat :=
  (curve.foldl mddStep (0, 0)).2

/-- `getRunDetails` of `data.ts`. -/
def getRunDetails (s : Store) (runId : String) : RunDetails :=
  let metadata := getRunMetadata s runId
  let opportunities := getOpportunities s runId
  let snapshots := getPortfolioSnapshots s runId
  let trades := getTrades s runId
  let tradesWithOpp := attachOpportunitiesToTrades trades opportunities
  let equityCurve := buildEquity tradesWithOpp
  { metadata := metadata
    trades := tradesWithOpp
    opportunities := opportunities
    snapshots := snapshots
    equityCurve := equityCurve
    maxDrawdown := computeMaxDrawdown equityCurve }

/-- The read mapping of `getRuntimeStatus`: `Boolean(...)` on the
integer columns, `dbConnected: true`, and the truthiness-guarded
heartbeat (`row.last_heartbeat ? toISOString : null`, kept as the
underlying seconds). -/
def statusFromRow (r : StatusRow) : RuntimeStatus :=
  { botEnabled := r.bot_enabled != 0
    botRunning := r.bot_running != 0
    wsConnected := r.ws_connected != 0
    dbConnected := true
    lastHeartbeat := if intTruthy r.last_heartbeat then r.last_heartbeat else none }

/-- `getRuntimeStatus` of `data.ts` as a state-passing operation: the
`SELECT ... WHERE id = 1` reads the singleton and mutates nothing;
`none` is the thrown `runtime_status row not found` error
(`StatusRowMissing`). -/
def getRuntimeStatusSt (s : Store) : Option RuntimeStatus × Store :=
  (s.runtime_status.map statusFromRow, s)

/-- Result component of `getRuntimeStatus`. -/
def getRuntimeStatus (s : Store) : Option RuntimeStatus :=
  (getRuntimeStatusSt s).1

/-- First statement of `setBotEnabled`: `INSERT OR IGNORE INTO
runtime_status (id, bot_enabled, bot_running, ws_connected,
last_heartbeat) VALUES (1, 1, 0, 0, NULL)`. -/
def insertDefaultStatus (s : Store) : Store :=
  match s.runtime_status with
  | none => { s with runtime_status := some ⟨1, 0, 0, none⟩ }
  | some _ => s

/-- Second statement of `setBotEnabled`: `UPDATE runtime_status SET
bot_enabled = @enabled WHERE id = 1` with `enabled ? 1 : 0`. -/
def updateBotEnabled (enabled : Bool) (s : Store) : Store :=
  { s with runtime_status :=
      s.runtime_status.map (fun r =>
        { r with bot_enabled := if enabled then 1 else 0 }) }

/-- `setBotEnabled` of `data.ts`: insert-if-absent of the default row,
unconditional update of `bot_enabled`, then re-read via
`getRuntimeStatus`. -/
def setBotEnabled (enabled : Bool) (s : Store) : Option RuntimeStatus × Store :=
  let s2 := updateBotEnabled enabled (insertDefaultStatus s)
  (getRuntimeStatus s2, s2)

/-- Response of the `GET /api/runs/[runId]` route: 404 with
`{error: 'Run not found'}` when `details.metadata` is absent, otherwise
200 with the details.  `getRunDetails` is total in the embedding — the
route's catch branch (500) only fires on store-level exceptions, which
are outside the model. -/
inductive RunRouteResponse where
  | notFound
  | ok (details : RunDetails)
  deriving DecidableEq

/-- `GET` handler of `app/api/runs/[runId]/route.ts`. -/
def runRouteGET (s : Store) (runId : String) : RunRouteResponse :=
  let details := getRunDetails s runId
  match details.metadata with
  | none => RunRouteResponse.notFound
  | some _ => RunRouteResponse.ok details

/-! Concrete sample data used by witness and counterexample theorems. -/

/-- The spec's correlator example: a trade at `t = 25` on triangle 7. -/
def tradeC1 : PaperTrade :=
  ⟨1, "r", 25, 7, 100, 100, 0, 0, 0, 0, 0, 0, 0, 0, true, none⟩

/-- Opportunity at `t = 10` on triangle 7. -/
def oppC1a : Opportunity := ⟨1, "r", 10, 7, "A", "B", "C", 100, 100, 0, 0, 0, 0, "snap"⟩

/-- Opportunity at `t = 20` on triangle 7. -/
def oppC1b : Opportunity := ⟨2, "r", 20, 7, "A", "B", "C", 100, 100, 0, 0, 0, 0, "snap"⟩

/-- Opportunity at `t = 30` on triangle 7. -/
def oppC1c : Opportunity := ⟨3, "r", 30, 7, "A", "B", "C", 100, 100, 0, 0, 0, 0, "snap"⟩

/-- The spec's example opportunity list at `t = 10, 20, 30`. -/
def oppsC1 : List Opportunity := [oppC1a, oppC1b, oppC1c]

/-- The expected correlator output: the trade annotated with the
opportunity at `t = 20`. -/
def twC1 : TradeWithOpportunity := ⟨tradeC1, some (some oppC1b)⟩

/-- A trade of run `r` at `t = 1` with `realized_pnl = 2`. -/
def tradeP1 : PaperTrade :=
  ⟨1, "r", 1, 7, 100, 102, 2, 0, 0, 0, 0, 0, 0, 0, true, none⟩

/-- A trade of run `r` at `t = 2` with `realized_pnl = -5`. -/
def tradeP2 : PaperTrade :=
  ⟨2, "r", 2, 7, 100, 95, -5, 0, 0, 0, 0, 0, 0, 0, true, none⟩

/-- Store with one run `r` and the two trades above. -/
def storeC3 : Store := ⟨[⟨"r", 1, none, none⟩], [], [tradeP1, tradeP2], [], none⟩

/-- The summary `getRunMetadata storeC3 "r"` produces. -/
def summaryC3 : RunSummary :=
  ⟨"r", 1, none, none, 2, -3, -3 / 2, 1 / 2, none, RunStatus.active⟩

/-- Store whose single run has `end_timestamp = 0`: present but falsy. -/
def storeEndZero : Store := ⟨[⟨"r", 5, some 0, none⟩], [], [], [], none⟩

/-- Store whose single run `q` has `start_timestamp = 3`,
`end_timestamp = 10` and no trades. -/
def storeEndTen : Store := ⟨[⟨"q", 3, some 10, none⟩], [], [], [], none⟩

/-- The summary `getRunMetadata storeEndTen "q"` produces. -/
def summaryQ : RunSummary :=
  ⟨"q", 3, some 10, none, 0, 0, 0, 0, some 7, RunStatus.completed⟩

/-- A store with no rows at all (in particular no status row). -/
def emptyStore : Store := ⟨[], [], [], [], none⟩

/-- Store with one run `r` and no trades. -/
def storeNoTrades : Store := ⟨[⟨"r", 1, none, none⟩], [], [], [], none⟩

/-- The summary `getRunMetadata storeNoTrades "r"` produces. -/
def summaryR : RunSummary := ⟨"r", 1, none, none, 0, 0, 0, 0, none, RunStatus.active⟩

/-- A populated status row (bot disabled, running, connected,
heartbeat at `t = 5`). -/
def statusRowEx : StatusRow := ⟨0, 1, 1, some 5⟩

/-- A store holding `statusRowEx` as its singleton. -/
def storeWithStatus : Store := ⟨[], [], [], [], some statusRowEx⟩

/-- A store holding `statusRowEx` plus an analytics row, used to
observe the frame property of `setBotEnabled`. -/
def storeC8 : Store := ⟨[⟨"w", 1, none, none⟩], [], [], [], some statusRowEx⟩

/-- Store with a single run `r`, queried for the absent id `missing`. -/
def storeC9 : Store := ⟨[⟨"r", 1, none, none⟩], [], [], [], none⟩

/-- A trade at `t = 4` on triangle 9. -/
def tradeC10 : PaperTrade :=
  ⟨1, "r", 4, 9, 100, 101, 1, 0, 0, 0, 0, 0, 0, 0, true, none⟩

/-- An opportunity at `t = 3` on triangle 9, eligible for `tradeC10`. -/
def oppC10 : Opportunity := ⟨1, "r", 3, 9, "A", "B", "C", 100, 101, 0, 0, 0, 0, "snap"⟩

/-- The annotated form of `tradeC10` after attaching `[oppC10]`. -/
def twC10 : TradeWithOpportunity := ⟨tradeC10, some (some oppC10)⟩

/-! Helper lemmas. -/

/-- The accumulated maximum drawdown never decreases along the fold. -/
theorem mdd_go_ge (curve : List EquityPoint) :
    ∀ peak m : Rat, m ≤ (curve.foldl mddStep (peak, m)).2 := by
  induction curve with
  | nil => intro peak m; simp
  | cons p ps ih =>
      intro peak m
      have h := ih (max peak p.equity) (max m (max peak p.equity - p.equity))
      calc m ≤ max m (max peak p.equity - p.equity) := le_max_left _ _
        _ ≤ _ := by simpa [mddStep] using h
  
/-- Starting from accumulated drawdown 0 and an arbitrary peak, the fold
yields 0 exactly when the equity values, read from that peak onward,
never decrease. -/
theorem mdd_go_eq_zero_iff (curve : List EquityPoint) :
    ∀ peak : Rat,
      ((curve.foldl mddStep (peak, 0)).2 = 0 ↔
        List.Chain (fun a b => a ≤ b) peak (curve.map (fun p => p.equity))) := by
  induction curve with
  | nil => intro peak; simp
  | cons p ps ih =>
      intro peak
      by_cases hle : peak ≤ p.equity
      · have hstep : mddStep (peak, 0) p = (p.equity, 0) := by
          simp [mddStep, max_eq_right hle]
        rw [List.foldl_cons, hstep, List.map_cons, List.chain_cons]
        simp [ih p.equity, hle]
      · push_neg at hle
        have hpos : 0 < peak - p.equity := sub_pos.mpr hle
        have hstep : mddStep (peak, 0) p = (peak, peak - p.equity) := by
          simp [mddStep, max_eq_left (le_of_lt hle), max_eq_right (le_of_lt hpos)]
        rw [List.foldl_cons, hstep, List.map_cons, List.chain_cons]
        constructor
        · intro h0
          have hge := mdd_go_ge ps peak (peak - p.equity)
          rw [h0] at hge
          exact absurd (lt_of_lt_of_le hpos hge) (lt_irrefl 0)
        · rintro ⟨hc, -⟩
          exact absurd hc (not_le.mpr hle)

/-- Characterisation of a successful correlator selection: the chosen
opportunity is an eligible candidate with maximal timestamp. -/
theorem relatedOpp_eq_some (t : PaperTrade) (opps : List Opportunity) (o : Opportunity)
    (h : relatedOpp t opps = some o) :
    o ∈ opps ∧ o.triangle_id = t.triangle_id ∧ o.timestamp ≤ t.timestamp ∧
      ∀ o' ∈ opps, o'.triangle_id = t.triangle_id → o'.timestamp ≤ t.timestamp →
        o'.timestamp ≤ o.timestamp := by
  unfold relatedOpp at h
  rcases hs : List.insertionSort oppDescLe
      (opps.filter (fun o =>
        o.triangle_id == t.triangle_id && decide (o.timestamp ≤ t.timestamp))) with
    - | ⟨a, l⟩
  · rw [hs] at h; simp at h
  · rw [hs] at h
    have hao : a = o := by simpa using h
    subst hao
    have hsorted : List.Sorted oppDescLe (a :: l) := by
      rw [← hs]; exact List.sorted_insertionSort oppDescLe _
    have hperm : (a :: l).Perm
        (opps.filter (fun o =>
          o.triangle_id == t.triangle_id && decide (o.timestamp ≤ t.timestamp))) := by
      rw [← hs]; exact List.perm_insertionSort oppDescLe _
    have hafl : a ∈ opps.filter (fun o =>
        o.triangle_id == t.triangle_id && decide (o.timestamp ≤ t.timestamp)) :=
      hperm.mem_iff.mp (List.mem_cons_self a l)
    have hamem := List.mem_filter.mp hafl
    have hcond : a.triangle_id = t.triangle_id ∧ a.timestamp ≤ t.timestamp := by
      have := hamem.2
      simp only [Bool.and_eq_true, beq_iff_eq, decide_eq_true_eq] at this
      exact this
    refine ⟨hamem.1, hcond.1, hcond.2, ?_⟩
    intro o' ho' htri hts
    have ho'fl : o' ∈ opps.filter (fun o =>
        o.triangle_id == t.triangle_id && decide (o.timestamp ≤ t.timestamp)) := by
      refine List.mem_filter.mpr ⟨ho', ?_⟩
      simp only [Bool.and_eq_true, beq_iff_eq, decide_eq_true_eq]
      exact ⟨htri, hts⟩
    have ho'sort : o' ∈ a :: l := hperm.mem_iff.mpr ho'fl
    rcases List.mem_cons.mp ho'sort with heq | hmem
    · rw [heq]
    · exact List.rel_of_sorted_cons hsorted o' hmem

/-- When no opportunity is eligible, the correlator selects nothing. -/
theorem relatedOpp_eq_none_of (t : PaperTrade) (opps : List Opportunity)
    (h : ∀ o' ∈ opps, ¬(o'.triangle_id = t.triangle_id ∧ o'.timestamp ≤ t.timestamp)) :
    relatedOpp t opps = none := by
  unfold relatedOpp
  have hfl : opps.filter (fun o =>
      o.triangle_id == t.triangle_id && decide (o.timestamp ≤ t.timestamp)) = [] := by
    rw [List.filter_eq_nil_iff]
    intro a ha
    simp only [Bool.and_eq_true, beq_iff_eq, decide_eq_true_eq, not_and]
    intro h1 h2
    exact h a ha ⟨h1, h2⟩
  rw [hfl]
  rfl

/-- When at least one opportunity is eligible, the correlator selects
one: the filtered candidate list is non-empty, so its descending sort
has a head. -/
theorem relatedOpp_isSome_of (t : PaperTrade) (opps : List Opportunity) (o' : Opportunity)
    (ho' : o' ∈ opps) (htri : o'.triangle_id = t.triangle_id)
    (hts : o'.timestamp ≤ t.timestamp) :
    ∃ o, relatedOpp t opps = some o := by
  unfold relatedOpp
  have hfl : o' ∈ opps.filter (fun o =>
      o.triangle_id == t.triangle_id && decide (o.timestamp ≤ t.timestamp)) := by
    refine List.mem_filter.mpr ⟨ho', ?_⟩
    simp only [Bool.and_eq_true, beq_iff_eq, decide_eq_true_eq]
    exact ⟨htri, hts⟩
  have hmem : o' ∈ List.insertionSort oppDescLe (opps.filter (fun o =>
      o.triangle_id == t.triangle_id && decide (o.timestamp ≤ t.timestamp))) :=
    (List.perm_insertionSort oppDescLe _).mem_iff.mpr hfl
  cases hs : List.insertionSort oppDescLe (opps.filter (fun o =>
      o.triangle_id == t.triangle_id && decide (o.timestamp ≤ t.timestamp))) with
  | nil =>
      rw [hs] at hmem
      exact absurd hmem (List.not_mem_nil o')
  | cons a l =>
      exact ⟨a, rfl⟩

/-- The equity fold's last point carries the start value plus the sum of
the realized PnLs. -/
theorem buildEquityGo_getLast (trades : List TradeWithOpportunity) :
    ∀ c : Rat, trades ≠ [] →
      ∃ p, (buildEquityGo c trades).getLast? = some p ∧
        p.equity = c + (trades.map (fun t => t.realized_pnl)).sum := by
  induction trades with
  | nil => intro c h; exact absurd rfl h
  | cons t ts ih =>
      intro c _
      cases hts : ts with
      | nil =>
          refine ⟨⟨t.timestamp, c + t.realized_pnl⟩, ?_, ?_⟩
          · simp [buildEquityGo]
          · simp
      | cons t2 rest =>
          subst hts
          rcases ih (c + t.realized_pnl) (by simp) with ⟨p, hp, he⟩
          refine ⟨p, ?_, ?_⟩
          · obtain ⟨q, qs, hq⟩ :
                ∃ q qs, buildEquityGo (c + t.realized_pnl) (t2 :: rest) = q :: qs :=
              ⟨_, _, rfl⟩
            have hcons :
                buildEquityGo c (t :: t2 :: rest) =
                  ⟨t.timestamp, c + t.realized_pnl⟩ ::
                    buildEquityGo (c + t.realized_pnl) (t2 :: rest) := rfl
            rw [hcons, hq, List.getLast?_cons_cons, ← hq]
            exact hp
          · rw [he]
            simp only [List.map_cons, List.sum_cons]
            ring

/-- Attaching opportunities preserves the realized-PnL sequence. -/
theorem attach_map_pnl (trades : List PaperTrade) (opps : List Opportunity) :
    (attachOpportunitiesToTrades trades opps).map (fun tw => tw.realized_pnl) =
      trades.map (fun t => t.realized_pnl) := by
  unfold attachOpportunitiesToTrades
  split <;> rw [List.map_map] <;> rfl

/-- Attaching opportunities preserves the underlying trades, their order
and their count. -/
theorem attach_map_toPaperTrade (trades : List PaperTrade) (opps : List Opportunity) :
    (attachOpportunitiesToTrades trades opps).map (fun tw => tw.toPaperTrade) = trades := by
  unfold attachOpportunitiesToTrades
  split <;> rw [List.map_map] <;> exact List.map_id _

/-- Every summary listed by `getRuns` is the shared aggregation of one
`run_metadata` row. -/
theorem getRuns_mem_elim (s : Store) (m : RunSummary) (hm : m ∈ getRuns s) :
    ∃ rm ∈ s.run_metadata, summarizeRun s rm = m := by
  unfold getRuns at hm
  rcases List.mem_map.mp hm with ⟨rm, hrm, heq⟩
  exact ⟨rm, (List.perm_insertionSort runDescLe s.run_metadata).mem_iff.mp hrm, heq⟩

/-- A successful `getRunMetadata` lookup names the found row: it is in
the table, carries the requested id, and produces the summary. -/
theorem getRunMetadata_elim (s : Store) (runId : String) (m : RunSummary)
    (hm : getRunMetadata s runId = some m) :
    ∃ rm ∈ s.run_metadata, rm.run_id = runId ∧ summarizeRun s rm = m := by
  unfold getRunMetadata at hm
  rcases Option.map_eq_some'.mp hm with ⟨rm, hfind, heq⟩
  refine ⟨rm, List.mem_of_find?_eq_some hfind, ?_, heq⟩
  have := List.find?_some hfind
  simpa [beq_iff_eq] using this

/-- Fixed fields of the shared aggregation. -/
theorem summarizeRun_fields (s : Store) (rm : RunMetaRow) :
    (summarizeRun s rm).endTimestamp = rm.end_timestamp ∧
    (summarizeRun s rm).startTimestamp = rm.start_timestamp := by
  constructor <;> rfl

/-- Duration and status of the shared aggregation, by cases on the
truthiness of `end_timestamp`. -/
theorem summarizeRun_duration_status (s : Store) (rm : RunMetaRow) :
    (∀ e : Int, rm.end_timestamp = some e → e ≠ 0 →
        (summarizeRun s rm).durationSeconds = some (e - rm.start_timestamp) ∧
        (summarizeRun s rm).status = RunStatus.completed) ∧
    ((rm.end_timestamp = none ∨ rm.end_timestamp = some 0) →
        (summarizeRun s rm).durationSeconds = none ∧
        (summarizeRun s rm).status = RunStatus.active) := by
  constructor
  · intro e he hne
    constructor <;> simp [summarizeRun, intTruthy, he, hne]
  · rintro (he | he) <;> constructor <;> simp [summarizeRun, intTruthy, he]

/-! Claim theorems. -/

/-- **C1** — Correlator selection rule: for every trade and every list
of opportunities, each trade returned by `attachOpportunitiesToTrades`
is annotated as follows: whenever an opportunity is attached, it is one
of the given opportunities, shares the trade's `triangle_id`, has
`timestamp ≤` the trade's timestamp, and its timestamp is maximal among
all such candidates; whenever at least one opportunity satisfies both
conditions, one is indeed attached; and when no opportunity satisfies
both conditions, the attached opportunity is absent (the field is
missing, `none`, or an explicit `null`, `some none`). -/
theorem correlator_selection_rule (trades : List PaperTrade) (opps : List Opportunity)
    (tw : TradeWithOpportunity) (htw : tw ∈ attachOpportunitiesToTrades trades opps) :
    (∀ o : Opportunity, tw.opportunity = some (some o) →
        o ∈ opps ∧ o.triangle_id = tw.triangle_id ∧ o.timestamp ≤ tw.timestamp ∧
          ∀ o' ∈ opps, o'.triangle_id = tw.triangle_id → o'.timestamp ≤ tw.timestamp →
            o'.timestamp ≤ o.timestamp) ∧
    ((∃ o' ∈ opps, o'.triangle_id = tw.triangle_id ∧ o'.timestamp ≤ tw.timestamp) →
        ∃ o : Opportunity, tw.opportunity = some (some o)) ∧
    ((∀ o' ∈ opps, ¬(o'.triangle_id = tw.triangle_id ∧ o'.timestamp ≤ tw.timestamp)) →
        tw.opportunity = none ∨ tw.opportunity = some none) := by
  unfold attachOpportunitiesToTrades at htw
  by_cases hemp : opps.isEmpty
  · rw [if_pos hemp] at htw
    rcases List.mem_map.mp htw with ⟨t, -, rfl⟩
    rw [List.isEmpty_iff] at hemp
    refine ⟨?_, ?_, ?_⟩
    · intro o ho
      exact absurd ho (by simp)
    · rintro ⟨o', ho', -⟩
      rw [hemp] at ho'
      exact absurd ho' (List.not_mem_nil o')
    · intro _
      exact Or.inl rfl
  · rw [if_neg hemp] at htw
    rcases List.mem_map.mp htw with ⟨t, -, rfl⟩
    refine ⟨?_, ?_, ?_⟩
    · intro o ho
      have hro : relatedOpp t opps = some o := by simpa using ho
      exact relatedOpp_eq_some t opps o hro
    · rintro ⟨o', ho', htri, hts⟩
      rcases relatedOpp_isSome_of t opps o' ho' htri hts with ⟨o, ho⟩
      exact ⟨o, by simp [ho]⟩
    · intro hno
      have hro : relatedOpp t opps = none :=
        relatedOpp_eq_none_of t opps (fun o' ho' => hno o' ho')
      exact Or.inr (by simp [hro])

/-- Witness for C1, the spec's own example: opportunities at
`t = 10, 20, 30` on triangle 7 and a trade at `t = 25` get an
opportunity attached (the existence half), and the attached opportunity
at `t = 20` is an eligible candidate of maximal timestamp. -/
theorem correlator_selection_rule_witness :
    oppC1b ∈ oppsC1 ∧ oppC1b.triangle_id = twC1.triangle_id ∧
      oppC1b.timestamp ≤ twC1.timestamp ∧ twC1.opportunity ≠ none ∧
      twC1.opportunity ≠ some none := by
  have h := correlator_selection_rule [tradeC1] oppsC1 twC1 (by decide)
  have h1 := h.1 oppC1b (by decide)
  rcases h.2.1 ⟨oppC1b, by decide, by decide, by decide⟩ with ⟨o, ho⟩
  refine ⟨h1.1, h1.2.1, h1.2.2.1, ?_, ?_⟩ <;> rw [ho] <;> simp

/-- **C2** — For every ordered trade sequence, the maximum drawdown of
its equity curve is nonnegative, and it is zero exactly when the run's
equity is non-decreasing throughout — the run's equity starts at 0
before any trade (the running peak is initialised to 0), so the curve
prefixed with 0 must form a `≤`-chain. -/
theorem maxDrawdown_nonneg_and_zero_iff_nondecreasing (trades : List TradeWithOpportunity) :
    0 ≤ computeMaxDrawdown (buildEquity trades) ∧
    (computeMaxDrawdown (buildEquity trades) = 0 ↔
      List.Chain (fun a b => a ≤ b) 0 ((buildEquity trades).map (fun p => p.equity))) :=
  ⟨mdd_go_ge (buildEquity trades) 0 0, mdd_go_eq_zero_iff (buildEquity trades) 0⟩

/-- **C3** — Sum consistency between aggregator and equity builder: for
every store and run with a non-empty trade sequence, the equity of the
last point of the curve built by `getRunDetails` equals the `totalPnl`
reported by the run aggregator (`getRunMetadata`). -/
theorem equity_last_eq_totalPnl (s : Store) (runId : String) (m : RunSummary)
    (hm : getRunMetadata s runId = some m) (hne : runTrades s runId ≠ []) :
    ((getRunDetails s runId).equityCurve.getLast?).map (fun p => p.equity) =
      some m.totalPnl := by
  rcases getRunMetadata_elim s runId m hm with ⟨rm, -, hrid, hsum⟩
  have hperm : (getTrades s runId).Perm (runTrades s runId) :=
    List.perm_insertionSort tradeAscLe (runTrades s runId)
  have htne : getTrades s runId ≠ [] := by
    intro h
    apply hne
    have hlen := hperm.length_eq
    rw [h] at hlen
    exact List.length_eq_zero.mp hlen.symm
  set atts := attachOpportunitiesToTrades (getTrades s runId) (getOpportunities s runId)
    with hatts
  have hane : atts ≠ [] := by
    intro h
    apply htne
    have hlen : atts.length = (getTrades s runId).length := by
      rw [hatts]
      unfold attachOpportunitiesToTrades
      split <;> rw [List.length_map]
    rw [h] at hlen
    exact List.length_eq_zero.mp hlen.symm
  rcases buildEquityGo_getLast atts 0 hane with ⟨p, hp, he⟩
  have hcurve : (getRunDetails s runId).equityCurve = buildEquityGo 0 atts := rfl
  rw [hcurve, hp, Option.map_some']
  congr 1
  rw [he, zero_add, hatts, attach_map_pnl]
  have hsums : ((getTrades s runId).map (fun t => t.realized_pnl)).sum =
      ((runTrades s runId).map (fun t => t.realized_pnl)).sum :=
    (hperm.map (fun t => t.realized_pnl)).sum_eq
  rw [hsums, ← hsum]
  have : (summarizeRun s rm).totalPnl =
      ((runTrades s rm.run_id).map (fun t => t.realized_pnl)).sum := rfl
  rw [this, hrid]

/-- Witness for C3: run `r` with trades of PnL `+2` then `-5` has final
equity `-3`, the reported `totalPnl`. -/
theorem equity_last_eq_totalPnl_witness :
    ((getRunDetails storeC3 "r").equityCurve.getLast?).map (fun p => p.equity) =
      some summaryC3.totalPnl :=
  equity_last_eq_totalPnl storeC3 "r" summaryC3
    (by norm_num [getRunMetadata, storeC3, summaryC3, summarizeRun, runTrades, tradeP1,
      tradeP2, intTruthy, List.find?, List.filter])
    (by decide)

/-- Counterexample to C4 as stated: in `storeEndZero` the run has
`end_timestamp = 0` — present, so the claim demands
`status = completed` and `durationSeconds = 0 - 5` — yet the code's
JavaScript truthiness test (`row.end_timestamp ? ... : ...`) treats the
value 0 as absent and reports `active` with no duration. -/
theorem run_summary_duration_status_cex :
    (getRunMetadata storeEndZero "r").map (fun m => m.endTimestamp) = some (some 0) ∧
    (getRunMetadata storeEndZero "r").map (fun m => m.status) = some RunStatus.active ∧
    (getRunMetadata storeEndZero "r").map (fun m => m.durationSeconds) = some none := by
  refine ⟨?_, ?_, ?_⟩ <;> decide

/-- **C4 (amended)** — For every run summary produced by `getRuns` or
`getRunMetadata`: when `end_timestamp` is present *and nonzero*,
`durationSeconds = end_timestamp - start_timestamp` and
`status = "completed"`; when `end_timestamp` is absent *or zero* (zero
being falsy in JavaScript), `durationSeconds` is absent and
`status = "active"`. -/
theorem run_summary_duration_status (s : Store) (m : RunSummary)
    (hm : m ∈ getRuns s ∨ ∃ runId, getRunMetadata s runId = some m) :
    (∀ e : Int, m.endTimestamp = some e → e ≠ 0 →
        m.durationSeconds = some (e - m.startTimestamp) ∧
        m.status = RunStatus.completed) ∧
    ((m.endTimestamp = none ∨ m.endTimestamp = some 0) →
        m.durationSeconds = none ∧ m.status = RunStatus.active) := by
  have hrm : ∃ rm, summarizeRun s rm = m := by
    rcases hm with hmem | ⟨runId, hget⟩
    · rcases getRuns_mem_elim s m hmem with ⟨rm, -, h⟩
      exact ⟨rm, h⟩
    · rcases getRunMetadata_elim s runId m hget with ⟨rm, -, -, h⟩
      exact ⟨rm, h⟩
  rcases hrm with ⟨rm, rfl⟩
  have hfields := summarizeRun_fields s rm
  have hds := summarizeRun_duration_status s rm
  constructor
  · intro e he hne
    rw [hfields.1] at he
    rw [hfields.2]
    exact hds.1 e he hne
  · intro h
    rw [hfields.1] at h
    exact hds.2 h

/-- Witness for C4 (amended): the completed run of `storeEndTen`
(`start = 3`, `end = 10`) reports duration `7` and status
`completed`. -/
theorem run_summary_duration_status_witness :
    summaryQ.durationSeconds = some (10 - summaryQ.startTimestamp) ∧
      summaryQ.status = RunStatus.completed :=
  (run_summary_duration_status storeEndTen summaryQ
      (Or.inr ⟨"q", by decide⟩)).1 10 (by decide) (by decide)

/-- **C5** — `setBotEnabled` is idempotent: calling it twice with the
same value yields exactly the same response and store as calling it
once; moreover, starting from a store with no status row, the first
statement inserts the default row
(`bot_enabled = 1/true, bot_running = 0, ws_connected = 0,
last_heartbeat = NULL`) and the second unconditionally sets
`bot_enabled` to the requested value. -/
theorem setBotEnabled_idempotent_and_default (b : Bool) (s : Store) :
    setBotEnabled b (setBotEnabled b s).2 = setBotEnabled b s ∧
    (s.runtime_status = none →
        insertDefaultStatus s = { s with runtime_status := some ⟨1, 0, 0, none⟩ } ∧
        (setBotEnabled b s).2 =
          { s with runtime_status := some ⟨if b then 1 else 0, 0, 0, none⟩ }) := by
  obtain ⟨rmd, ops, pts, pss, rts⟩ := s
  constructor
  · cases rts <;> rfl
  · intro h
    cases h
    exact ⟨rfl, rfl⟩

/-- Witness for C5: enabling the bot on a store with no status row
creates the default row and then applies the value. -/
theorem setBotEnabled_idempotent_and_default_witness :
    insertDefaultStatus emptyStore =
      { emptyStore with runtime_status := some ⟨1, 0, 0, none⟩ } ∧
    (setBotEnabled true emptyStore).2 =
      { emptyStore with runtime_status := some ⟨if true then 1 else 0, 0, 0, none⟩ } :=
  (setBotEnabled_idempotent_and_default true emptyStore).2 rfl

/-- **C6** — For every run that exists and has zero trades, the
aggregator reports `tradeCount = 0`, `totalPnl = 0`, `averagePnl = 0`
and `winRate = 0`, and `getRunDetails` yields an empty `equityCurve`
with `maxDrawdown = 0`. -/
theorem zero_trades_zero_metrics (s : Store) (runId : String) (m : RunSummary)
    (hm : getRunMetadata s runId = some m) (h0 : runTrades s runId = []) :
    m.tradeCount = 0 ∧ m.totalPnl = 0 ∧ m.averagePnl = 0 ∧ m.winRate = 0 ∧
      (getRunDetails s runId).equityCurve = [] ∧
      (getRunDetails s runId).maxDrawdown = 0 := by
  rcases getRunMetadata_elim s runId m hm with ⟨rm, -, hrid, rfl⟩
  have h0' : runTrades s rm.run_id = [] := by rw [hrid]; exact h0
  have hgt : getTrades s runId = [] := by
    unfold getTrades
    rw [h0]
    rfl
  have hcurve : (getRunDetails s runId).equityCurve = [] := by
    have hc : (getRunDetails s runId).equityCurve =
        buildEquity (attachOpportunitiesToTrades (getTrades s runId)
          (getOpportunities s runId)) := rfl
    rw [hc, hgt]
    have hao : attachOpportunitiesToTrades [] (getOpportunities s runId) = [] := by
      unfold attachOpportunitiesToTrades
      split <;> rfl
    rw [hao]
    rfl
  refine ⟨?_, ?_, ?_, ?_, hcurve, ?_⟩
  · simp [summarizeRun, h0']
  · simp [summarizeRun, h0']
  · simp [summarizeRun, h0']
  · simp [summarizeRun, h0']
  · have hmd : (getRunDetails s runId).maxDrawdown =
        computeMaxDrawdown ((getRunDetails s runId).equityCurve) := rfl
    rw [hmd, hcurve]
    rfl

/-- Witness for C6: the tradeless run of `storeNoTrades` reports all
zero metrics, an empty curve and zero drawdown. -/
theorem zero_trades_zero_metrics_witness :
    summaryR.tradeCount = 0 ∧ summaryR.totalPnl = 0 ∧ summaryR.averagePnl = 0 ∧
      summaryR.winRate = 0 ∧ (getRunDetails storeNoTrades "r").equityCurve = [] ∧
      (getRunDetails storeNoTrades "r").maxDrawdown = 0 :=
  zero_trades_zero_metrics storeNoTrades "r" summaryR (by decide) (by decide)

/-- **C7** — `getRuntimeStatus` fails (the thrown `StatusRowMissing`,
modelled as `none`) exactly when the runtime-status singleton has never
been initialised, succeeds whenever the row exists, and in either case
the read leaves the store unchanged — it never creates the row. -/
theorem getStatus_fails_iff_missing (s : Store) :
    (s.runtime_status = none → getRuntimeStatusSt s = (none, s)) ∧
    (∀ r : StatusRow, s.runtime_status = some r →
        getRuntimeStatusSt s = (some (statusFromRow r), s)) := by
  constructor
  · intro h
    simp [getRuntimeStatusSt, h]
  · intro r h
    simp [getRuntimeStatusSt, h]

/-- Witness for C7: the read fails on the empty store and succeeds on
`storeWithStatus`, leaving each store unchanged. -/
theorem getStatus_fails_iff_missing_witness :
    getRuntimeStatusSt emptyStore = (none, emptyStore) ∧
    getRuntimeStatusSt storeWithStatus = (some (statusFromRow statusRowEx), storeWithStatus) :=
  ⟨(getStatus_fails_iff_missing emptyStore).1 rfl,
   (getStatus_fails_iff_missing storeWithStatus).2 statusRowEx rfl⟩

/-- **C8** — Frame property of the single mutable path: when the status
row exists, `setBotEnabled` only replaces the singleton's `bot_enabled`
field (`bot_running`, `ws_connected` and `last_heartbeat` are carried
over unchanged); for every store, no analytics table (runs,
opportunities, trades, snapshots) is touched by `setBotEnabled`, and the
status read mutates nothing.  The remaining core operations (`getRuns`,
`getRunMetadata`, `getRunDetails`) are pure functions of the store in
this embedding, mirroring their SELECT-only bodies. -/
theorem setBotEnabled_frame (b : Bool) (s : Store) (r : StatusRow)
    (h : s.runtime_status = some r) :
    (setBotEnabled b s).2 =
      { s with runtime_status := some { r with bot_enabled := if b then 1 else 0 } } ∧
    (∀ t : Store,
        (setBotEnabled b t).2.run_metadata = t.run_metadata ∧
        (setBotEnabled b t).2.opportunities = t.opportunities ∧
        (setBotEnabled b t).2.paper_trades = t.paper_trades ∧
        (setBotEnabled b t).2.portfolio_snapshots = t.portfolio_snapshots) ∧
    (∀ t : Store, (getRuntimeStatusSt t).2 = t) := by
  refine ⟨?_, ?_, fun t => rfl⟩
  · obtain ⟨rmd, ops, pts, pss, rts⟩ := s
    cases h
    rfl
  · intro t
    obtain ⟨rmd, ops, pts, pss, rts⟩ := t
    cases rts <;> exact ⟨rfl, rfl, rfl, rfl⟩

/-- Witness for C8: toggling the bot on `storeC8` rewrites only the
`bot_enabled` field of its status row. -/
theorem setBotEnabled_frame_witness :
    (setBotEnabled true storeC8).2 =
      { storeC8 with runtime_status := some { statusRowEx with bot_enabled := if true then 1 else 0 } } :=
  (setBotEnabled_frame true storeC8 statusRowEx rfl).1

/-- **C9** — For every run id that matches no `run_metadata` row,
`getRunMetadata` returns absent and the `GET /api/runs/[runId]` boundary
maps this to the not-found response; both operations are total in the
embedding, so a nonexistent id never raises. -/
theorem getRun_missing_not_found (s : Store) (runId : String)
    (h : ∀ rm ∈ s.run_metadata, rm.run_id ≠ runId) :
    getRunMetadata s runId = none ∧
      runRouteGET s runId = RunRouteResponse.notFound := by
  have hfind : s.run_metadata.find? (fun r => r.run_id == runId) = none := by
    rw [List.find?_eq_none]
    intro rm hrm
    simpa [beq_iff_eq] using h rm hrm
  constructor
  · simp [getRunMetadata, hfind]
  · have hmeta : (getRunDetails s runId).metadata = none := by
      have : (getRunDetails s runId).metadata = getRunMetadata s runId := rfl
      rw [this]
      simp [getRunMetadata, hfind]
    simp [runRouteGET, hmeta]

/-- Witness for C9: querying `storeC9` for the id `missing` yields
absent metadata and the not-found response. -/
theorem getRun_missing_not_found_witness :
    getRunMetadata storeC9 "missing" = none ∧
      runRouteGET storeC9 "missing" = RunRouteResponse.notFound :=
  getRun_missing_not_found storeC9 "missing" (by decide)

/-- **C10** — Interface shape of the correlator: with an empty
opportunity list the input trades are returned unchanged with the
`opportunity` field absent on every trade; with a non-empty opportunity
list every returned trade carries an explicit annotation (possibly the
`null` of a failed lookup); and for every opportunity list the output
preserves the input's length, order and every original trade field. -/
theorem attach_empty_and_shape (trades : List PaperTrade) :
    attachOpportunitiesToTrades trades [] =
      trades.map (fun t => { toPaperTrade := t, opportunity := none }) ∧
    (∀ opps : List Opportunity, opps ≠ [] →
        ∀ tw ∈ attachOpportunitiesToTrades trades opps,
          tw.opportunity.isSome = true) ∧
    (∀ opps : List Opportunity,
        (attachOpportunitiesToTrades trades opps).map (fun tw => tw.toPaperTrade) =
          trades) := by
  refine ⟨rfl, ?_, fun opps => attach_map_toPaperTrade trades opps⟩
  intro opps hne tw htw
  unfold attachOpportunitiesToTrades at htw
  rw [if_neg (by simpa [List.isEmpty_iff] using hne)] at htw
  rcases List.mem_map.mp htw with ⟨t, -, rfl⟩
  rfl

/-- Witness for C10: attaching the empty list leaves `[tradeC10]`
unannotated, attaching `[oppC10]` annotates its one trade, and both
calls preserve the underlying trade. -/
theorem attach_empty_and_shape_witness :
    attachOpportunitiesToTrades [tradeC10] [] =
      [tradeC10].map (fun t => { toPaperTrade := t, opportunity := none }) ∧
    twC10.opportunity.isSome = true ∧
    (attachOpportunitiesToTrades [tradeC10] [oppC10]).map (fun tw => tw.toPaperTrade) =
      [tradeC10] := by
  have h1 := (attach_empty_and_shape [tradeC10]).1
  have h2 := (attach_empty_and_shape [tradeC10]).2.1 [oppC10] (by decide) twC10 (by decide)
  have h3 := (attach_empty_and_shape [tradeC10]).2.2 [oppC10]
  exact ⟨h1, h2, h3⟩
